import Mathlib

/-!
Verification of the computation core of the Bayes-rule target-detection
simulation (CFAR radar detection demo for maritime SAR imagery).

The source is a Python notebook whose core consists of five stateless
numeric functions: generate_clutter_data, estimate_pixels,
generate_target_data, compute_cfar_threshold and compute_roc_curve.
Random sampling calls (scipy gamma.rvs and rayleigh.rvs) are modelled by
passing the drawn standard samples as explicit list arguments, with the
support facts of the distributions (gamma samples are nonnegative, a
standard Rayleigh sample is nonnegative so a shifted and scaled sample is
at least its location parameter) stated as hypotheses.  The scipy
kstwobign distribution object is modelled by an abstract interface
structure recording the documented behaviour of its ppf (quantile) method
and its positive mean.
-/

/-- The linear noise floor computed from a NESZ value in decibels:
nesz_linear = 10 ** (nesz / 10), as in the source. -/
noncomputable def neszLinear (nesz : ℝ) : ℝ := (10 : ℝ) ^ (nesz / 10)

/-- The empirical mean np.mean(data) of a list of samples. -/
noncomputable def listMean (data : List ℝ) : ℝ := data.sum / data.length

/-- Ground resolution of the SAR system in meters, a fixed constant of the
source (ground_resolution = 10). -/
def ground_resolution : ℝ := 10

/-- estimate_pixels(target_length, ground_resolution) from the source:
max(1, int(np.ceil(target_length / ground_resolution))). -/
noncomputable def estimate_pixels (target_length g_resolution : ℝ) : ℤ :=
  max 1 ⌈target_length / g_resolution⌉

/-- generate_clutter_data(nesz) from the source: for each of the five sea
states, gamma.rvs(a=2, scale=s, size=1000) + nesz_linear with
s in 1..5.  The five gamma draw vectors are passed as explicit arguments
d1..d5; the dictionary literal of the source becomes an association list
keeping the key strings and their order. -/
noncomputable def generate_clutter_data (nesz : ℝ) (d1 d2 d3 d4 d5 : List ℝ) :
    List (String × List ℝ) :=
  let nesz_linear := neszLinear nesz
  [ ("Sea State 1: Calm (rippled) - Wave Height: 0 - 0.1m",
      d1.map (fun x => x + nesz_linear)),
    ("Sea State 2: Smooth (wavelets) - Wave Height: 0.1 - 0.5m",
      d2.map (fun x => x + nesz_linear)),
    ("Sea State 3: Slight - Wave Height: 0.5 - 1.25m",
      d3.map (fun x => x + nesz_linear)),
    ("Sea State 4: Moderate - Wave Height: 1.25 - 2.5m",
      d4.map (fun x => x + nesz_linear)),
    ("Sea State 5: Rough - Wave Height: 2.5 - 4.0m",
      d5.map (fun x => x + nesz_linear)) ]

/-- generate_target_data(rcs, snr_db, size, pixels, nesz) from the source,
for a present RCS value.  rayleigh.rvs(loc, scale=1.5, size=size*pixels)
is modelled as loc + 1.5 * x over the standard Rayleigh draws x
(rayleighDraws), and gamma.rvs(a=2, scale=2, size=size*pixels) as the
draws gammaDraws; both draw lists are explicit arguments whose length is
constrained to size * pixels in the theorems below. -/
noncomputable def generate_target_data (rcs snr_db : ℝ) (size pixels : ℕ)
    (nesz : ℝ) (rayleighDraws gammaDraws : List ℝ) : List ℝ :=
  let nesz_linear := neszLinear nesz
  let snr_linear : ℝ := (10 : ℝ) ^ (snr_db / 10)
  let adjusted_rcs := rcs * snr_linear
  let target_signal := rayleighDraws.map (fun x => adjusted_rcs + nesz_linear + 1.5 * x)
  let clutter_noise := gammaDraws.map (fun x => x + nesz_linear)
  List.zipWith (fun a b => a + b) target_signal clutter_noise

/-- generate_target_data as invoked through the target_info catalog, where
the RCS entry may be absent (Python None).  In the source, calling
generate_target_data with rcs = None raises a TypeError at
adjusted_rcs = rcs * snr_linear; the fallible call is modelled as an
Option, none standing for the raised error. -/
noncomputable def generate_target_dataOpt (rcs : Option ℝ) (snr_db : ℝ)
    (size pixels : ℕ) (nesz : ℝ) (rayleighDraws gammaDraws : List ℝ) :
    Option (List ℝ) :=
  match rcs with
  | none => none
  | some v => some (generate_target_data v snr_db size pixels nesz rayleighDraws gammaDraws)

/-- Abstract interface for the scipy.stats.kstwobign frozen distribution
(the two-sided Kolmogorov statistic distribution), recording the
documented behaviour of the pieces the source uses:
ppf, the quantile method, with support [0, inf): on the open interval
(0,1) it is finite and strictly increasing; at q = 0 scipy returns the
lower support bound 0.0; at q = 1 it returns the upper support bound
+inf and outside [0,1] it returns NaN, both modelled as none; and
mean, the distribution mean (about 0.8687), which is positive. -/
structure KstwobignModel where
  ppf : ℝ → Option ℝ
  mean : ℝ
  mean_pos : 0 < mean
  ppf_zero : ppf 0 = some 0
  ppf_dom : ∀ q : ℝ, 0 < q → q < 1 → ∃ t, ppf q = some t
  ppf_undef : ∀ q : ℝ, q < 0 ∨ 1 ≤ q → ppf q = none
  ppf_strictMono : ∀ q₁ q₂ t₁ t₂ : ℝ, 0 ≤ q₁ → q₁ < q₂ → q₂ < 1 →
    ppf q₁ = some t₁ → ppf q₂ = some t₂ → t₁ < t₂

/-- compute_cfar_threshold(data, pfa) from the source:
threshold = kstwobign().ppf(1 - pfa);
scale_factor = np.mean(data) / kstwobign().mean();
return threshold * scale_factor.
An undefined quantile (NaN or inf) propagates through the product, hence
the Option.map. -/
noncomputable def compute_cfar_threshold (k_dist : KstwobignModel)
    (data : List ℝ) (pfa : ℝ) : Option ℝ :=
  (k_dist.ppf (1 - pfa)).map (fun threshold => threshold * (listMean data / k_dist.mean))

/-- A concrete instance of the kstwobign interface used by witness and
counterexample theorems: ppf q = q / (1 - q) on [0, 1), none elsewhere,
mean = 1.  It satisfies every interface field. -/
noncomputable def kWitness : KstwobignModel where
  ppf q := if h : 0 ≤ q ∧ q < 1 then some (q / (1 - q)) else none
  mean := 1
  mean_pos := one_pos
  ppf_zero := by norm_num
  ppf_dom := by
    intro q h0 h1
    exact ⟨q / (1 - q), by dsimp only; rw [dif_pos ⟨le_of_lt h0, h1⟩]⟩
  ppf_undef := by
    intro q hq
    dsimp only
    rcases hq with h | h
    · rw [dif_neg]; rintro ⟨h0, _⟩; linarith
    · rw [dif_neg]; rintro ⟨_, h1⟩; linarith
  ppf_strictMono := by
    intro q₁ q₂ t₁ t₂ h0 h12 h2 e1 e2
    dsimp only at e1 e2
    rw [dif_pos ⟨h0, lt_trans h12 h2⟩] at e1
    rw [dif_pos ⟨le_trans h0 (le_of_lt h12), h2⟩] at e2
    have ht1 : t₁ = q₁ / (1 - q₁) := (Option.some_injective _ e1).symm
    have ht2 : t₂ = q₂ / (1 - q₂) := (Option.some_injective _ e2).symm
    have d1 : (0:ℝ) < 1 - q₁ := by linarith
    have d2 : (0:ℝ) < 1 - q₂ := by linarith
    rw [ht1, ht2, div_lt_div_iff₀ d1 d2]
    nlinarith

/-- The binary detection decisions of compute_roc_curve:
detections = scores >= cfar_threshold, elementwise. -/
noncomputable def rocDetections (scores : List ℝ) (cfar_threshold : ℝ) : List Bool :=
  scores.map (fun s => if cfar_threshold ≤ s then true else false)

/-- sklearn.metrics.roc_curve applied to a binary label vector and a
binary decision vector, as the source does.  For a binary score vector
the curve consists of the origin (0,0), the operating point
(FP / N, TP / P) of the decision rule, and the endpoint (1,1), where N
and P count the negative and positive labels and FP and TP count the
detected negatives and detected positives.  When the decision vector is
degenerate (all true or all false) the middle point coincides with an
endpoint, which leaves the trapezoidal AUC unchanged. -/
noncomputable def roc_curve (labels dets : List Bool) : List ℝ × List ℝ :=
  let pairs := labels.zip dets
  let N := labels.countP (fun b => !b)
  let P := labels.countP (fun b => b)
  let FP := pairs.countP (fun p => !p.1 && p.2)
  let TP := pairs.countP (fun p => p.1 && p.2)
  ([0, (FP : ℝ) / (N : ℝ), 1], [0, (TP : ℝ) / (P : ℝ), 1])

/-- The trapezoidal rule over a list of (x, y) points, the integration
rule behind sklearn.metrics.auc. -/
noncomputable def trapezoid : List (ℝ × ℝ) → ℝ
  | p1 :: p2 :: rest => (p2.1 - p1.1) * (p2.2 + p1.2) / 2 + trapezoid (p2 :: rest)
  | _ => 0

/-- sklearn.metrics.auc(fpr, tpr): trapezoidal integral of the curve. -/
noncomputable def auc (fpr tpr : List ℝ) : ℝ := trapezoid (fpr.zip tpr)

/-- compute_roc_curve(clutter_data, target_data, cfar_threshold) from the
source:
labels = concatenate(zeros_like(clutter_data), ones_like(target_data));
scores = concatenate(clutter_data, target_data);
detections = scores >= cfar_threshold;
fpr, tpr, _ = roc_curve(labels, detections); roc_auc = auc(fpr, tpr);
return fpr, tpr, roc_auc.
Labels are Bool, false for 0 (clutter) and true for 1 (target). -/
noncomputable def compute_roc_curve (clutter_data target_data : List ℝ)
    (cfar_threshold : ℝ) : List ℝ × List ℝ × ℝ :=
  let labels := List.replicate clutter_data.length false ++
    List.replicate target_data.length true
  let scores := clutter_data ++ target_data
  let detections := rocDetections scores cfar_threshold
  let fpr := (roc_curve labels detections).1
  let tpr := (roc_curve labels detections).2
  (fpr, tpr, auc fpr tpr)

/-! Helper lemmas. -/

/-- An element of an elementwise combination of two lists comes from
elements of the two lists. -/
theorem exists_of_mem_zipWith {α β γ : Type} {f : α → β → γ} :
    ∀ {as : List α} {bs : List β} {y : γ}, y ∈ List.zipWith f as bs →
      ∃ a ∈ as, ∃ b ∈ bs, y = f a b := by
  intro as
  induction as with
  | nil => intro bs y hy; simp [List.zipWith] at hy
  | cons a as ih =>
    intro bs y hy
    cases bs with
    | nil => simp [List.zipWith] at hy
    | cons b bs =>
      rcases List.mem_cons.1 hy with h | h
      · exact ⟨a, List.mem_cons_self a as, b, List.mem_cons_self b bs, h⟩
      · rcases ih h with ⟨x, hx, z, hz, hyz⟩
        exact ⟨x, List.mem_cons_of_mem a hx, z, List.mem_cons_of_mem b hz, hyz⟩

/-- Counting over the zip of a constant label column with a data column
reduces to counting over the data column. -/
theorem countP_zip_replicate {b : Bool} (q : Bool → Bool → Bool) :
    ∀ l : List Bool,
      ((List.replicate l.length b).zip l).countP (fun p => q p.1 p.2) =
        l.countP (fun x => q b x) := by
  intro l
  induction l with
  | nil => rfl
  | cons x xs ih =>
    simp only [List.length_cons, List.replicate_succ, List.zip_cons_cons,
      List.countP_cons, ih]

/-- The empirical mean of a nonempty list of positive samples is
positive. -/
theorem listMean_pos {l : List ℝ} (hne : l ≠ []) (hp : ∀ x ∈ l, 0 < x) :
    0 < listMean l := by
  have hs : 0 < l.sum := List.sum_pos l hp hne
  have hl : 0 < l.length := List.length_pos.2 hne
  exact div_pos hs (by exact_mod_cast hl)

/-- Scaling every sample by c scales the empirical mean by c. -/
theorem listMean_map_mul (c : ℝ) (l : List ℝ) :
    listMean (l.map (fun x => c * x)) = c * listMean l := by
  unfold listMean
  rw [List.length_map]
  have hs : (l.map (fun x => c * x)).sum = c * l.sum := by
    have := List.sum_map_mul_left l (fun x => x) c
    simpa using this
  rw [hs, mul_div_assoc]

/-- The trapezoidal rule on a three point polyline, written out. -/
theorem trapezoid_three (a b c d e f : ℝ) :
    trapezoid [(a, b), (c, d), (e, f)] =
      (c - a) * (d + b) / 2 + (e - c) * (f + d) / 2 := by
  simp [trapezoid]

/-- roc_curve on the label vector zeros-then-ones and a matching split
decision vector, evaluated in terms of the detection counts of the two
halves. -/
theorem roc_curve_split (d_c d_t : List Bool) :
    roc_curve (List.replicate d_c.length false ++ List.replicate d_t.length true)
        (d_c ++ d_t) =
      ([0, (d_c.countP (fun x => x) : ℝ) / (d_c.length : ℝ), 1],
       [0, (d_t.countP (fun x => x) : ℝ) / (d_t.length : ℝ), 1]) := by
  unfold roc_curve
  have hzip : (List.replicate d_c.length false ++ List.replicate d_t.length true).zip
      (d_c ++ d_t) =
      (List.replicate d_c.length false).zip d_c ++ (List.replicate d_t.length true).zip d_t :=
    List.zip_append (by simp)
  rw [hzip]
  simp only [List.countP_append, List.countP_replicate]
  rw [countP_zip_replicate (fun a b => !a && b) d_c,
    countP_zip_replicate (fun a b => !a && b) d_t,
    countP_zip_replicate (fun a b => a && b) d_c,
    countP_zip_replicate (fun a b => a && b) d_t]
  simp

/-- compute_roc_curve evaluated: the fpr and tpr polylines and the AUC in
terms of the per-class detection counts. -/
theorem compute_roc_curve_eval (c t : List ℝ) (thr : ℝ) :
    compute_roc_curve c t thr =
      ([0, (c.countP (fun s => if thr ≤ s then true else false) : ℝ) / (c.length : ℝ), 1],
       [0, (t.countP (fun s => if thr ≤ s then true else false) : ℝ) / (t.length : ℝ), 1],
       auc [0, (c.countP (fun s => if thr ≤ s then true else false) : ℝ) / (c.length : ℝ), 1]
           [0, (t.countP (fun s => if thr ≤ s then true else false) : ℝ) / (t.length : ℝ), 1]) := by
  simp only [compute_roc_curve, rocDetections, List.map_append]
  have hc : c.length = (c.map (fun s => if thr ≤ s then true else false)).length := by simp
  have ht : t.length = (t.map (fun s => if thr ≤ s then true else false)).length := by simp
  rw [hc, ht, roc_curve_split]
  simp [List.countP_map, Function.comp_def, List.length_map]

/-- The AUC returned by compute_roc_curve, in terms of the per-class
detection counts. -/
theorem compute_roc_curve_auc (c t : List ℝ) (thr : ℝ) :
    (compute_roc_curve c t thr).2.2 =
      auc [0, (c.countP (fun s => if thr ≤ s then true else false) : ℝ) / (c.length : ℝ), 1]
        [0, (t.countP (fun s => if thr ≤ s then true else false) : ℝ) / (t.length : ℝ), 1] := by
  rw [compute_roc_curve_eval]

/-- The AUC of the three point curve through the origin, the operating
point (a, b) and the corner (1, 1). -/
theorem auc_three (a b : ℝ) :
    auc [0, a, 1] [0, b, 1] = a * b / 2 + (1 - a) * (1 + b) / 2 := by
  have : ([0, a, 1] : List ℝ).zip [0, b, 1] = [(0, 0), (a, b), (1, 1)] := by
    simp [List.zip_cons_cons]
  rw [auc, this, trapezoid_three]
  ring

/-! Claim theorems. -/

/-- Claim C1: for every clutter SampleSet and every PFA in (0,1),
compute_cfar_threshold returns the quantile of the Kolmogorov two-sided
distribution at 1 - PFA multiplied by the mean of the input SampleSet
divided by the mean of the Kolmogorov distribution. -/
theorem claim_c1_threshold_formula (k : KstwobignModel) (data : List ℝ)
    (pfa : ℝ) (h0 : 0 < pfa) (h1 : pfa < 1) :
    ∃ t, k.ppf (1 - pfa) = some t ∧
      compute_cfar_threshold k data pfa = some (t * (listMean data / k.mean)) := by
  obtain ⟨t, ht⟩ := k.ppf_dom (1 - pfa) (by linarith) (by linarith)
  exact ⟨t, ht, by rw [compute_cfar_threshold, ht]; rfl⟩

/-- Witness for claim C1 at the concrete model kWitness, the clutter data
[1, 2] and PFA = 1/2. -/
theorem claim_c1_threshold_formula_witness :
    (0:ℝ) < 1/2 ∧ (1/2:ℝ) < 1 ∧
      ∃ t, kWitness.ppf (1 - 1/2) = some t ∧
        compute_cfar_threshold kWitness [1, 2] (1/2) =
          some (t * (listMean [1, 2] / kWitness.mean)) :=
  ⟨by norm_num, by norm_num,
    claim_c1_threshold_formula kWitness [1, 2] (1/2) (by norm_num) (by norm_num)⟩

/-- Claim C2: for a fixed nonempty clutter SampleSet of positive samples,
compute_cfar_threshold is strictly decreasing in PFA on (0,1), and scaling
every clutter value by a positive constant c scales the threshold by
exactly c (hence approximately c). -/
theorem claim_c2_threshold_mono_scaling (k : KstwobignModel) (data : List ℝ)
    (pfa₁ pfa₂ c : ℝ) (hne : data ≠ []) (hpos : ∀ x ∈ data, 0 < x)
    (h0 : 0 < pfa₁) (h12 : pfa₁ < pfa₂) (h1 : pfa₂ < 1) (hc : 0 < c) :
    (∃ t₁ t₂, compute_cfar_threshold k data pfa₁ = some t₁ ∧
       compute_cfar_threshold k data pfa₂ = some t₂ ∧ t₂ < t₁) ∧
    compute_cfar_threshold k (data.map (fun x => c * x)) pfa₁ =
      Option.map (fun t => c * t) (compute_cfar_threshold k data pfa₁) := by
  obtain ⟨u₁, hu₁⟩ := k.ppf_dom (1 - pfa₁) (by linarith) (by linarith)
  obtain ⟨u₂, hu₂⟩ := k.ppf_dom (1 - pfa₂) (by linarith) (by linarith)
  have hmean : 0 < listMean data := listMean_pos hne hpos
  have hscale : 0 < listMean data / k.mean := div_pos hmean k.mean_pos
  have hu : u₂ < u₁ :=
    k.ppf_strictMono (1 - pfa₂) (1 - pfa₁) u₂ u₁ (by linarith) (by linarith)
      (by linarith) hu₂ hu₁
  constructor
  · refine ⟨u₁ * (listMean data / k.mean), u₂ * (listMean data / k.mean),
      by rw [compute_cfar_threshold, hu₁]; rfl,
      by rw [compute_cfar_threshold, hu₂]; rfl, ?_⟩
    exact mul_lt_mul_of_pos_right hu hscale
  · rw [compute_cfar_threshold, compute_cfar_threshold, hu₁]
    simp only [Option.map_some']
    rw [listMean_map_mul]
    congr 1
    ring

/-- Witness for claim C2 at the concrete model kWitness, the clutter data
[1, 2], PFA values 1/4 < 1/2 and scale factor c = 2. -/
theorem claim_c2_threshold_mono_scaling_witness :
    ([1, 2] : List ℝ) ≠ [] ∧ (∀ x ∈ ([1, 2] : List ℝ), 0 < x) ∧
    (0:ℝ) < 1/4 ∧ (1/4:ℝ) < 1/2 ∧ (1/2:ℝ) < 1 ∧ (0:ℝ) < 2 ∧
    ((∃ t₁ t₂, compute_cfar_threshold kWitness [1, 2] (1/4) = some t₁ ∧
        compute_cfar_threshold kWitness [1, 2] (1/2) = some t₂ ∧ t₂ < t₁) ∧
      compute_cfar_threshold kWitness (([1, 2] : List ℝ).map (fun x => 2 * x)) (1/4) =
        Option.map (fun t => 2 * t) (compute_cfar_threshold kWitness [1, 2] (1/4))) :=
  ⟨by simp, by intro x hx; simp at hx; rcases hx with rfl | rfl <;> norm_num,
    by norm_num, by norm_num, by norm_num, by norm_num,
    claim_c2_threshold_mono_scaling kWitness [1, 2] (1/4) (1/2) 2 (by simp)
      (by intro x hx; simp at hx; rcases hx with rfl | rfl <;> norm_num)
      (by norm_num) (by norm_num) (by norm_num) (by norm_num)⟩

/-- Counterexample to claim C8 as stated: PFA = 1 lies outside the open
interval (0,1), yet the quantile lookup is not undefined: the quantile at
q = 1 - 1 = 0 is the lower support bound 0 of the distribution, so
compute_cfar_threshold returns the well-defined value 0. -/
theorem claim_c8_counterexample :
    ¬ ((0:ℝ) < 1 ∧ (1:ℝ) < 1) ∧
      compute_cfar_threshold kWitness [1] 1 = some 0 := by
  constructor
  · rintro ⟨-, h⟩; exact lt_irrefl 1 h
  · rw [compute_cfar_threshold]
    have h0 : (1:ℝ) - 1 = 0 := by norm_num
    rw [h0, kWitness.ppf_zero]
    simp

/-- Claim C8 amended: for PFA < 0, PFA > 1 or PFA = 0 the quantile lookup
is undefined (NaN or infinity) and compute_cfar_threshold propagates the
undefined value; at PFA = 1 the lookup degenerates to the lower support
bound 0 and the threshold is the well-defined value 0; for PFA in (0,1)
the threshold is a well-defined value. -/
theorem claim_c8_domain (k : KstwobignModel) (data : List ℝ) (pfa : ℝ) :
    (pfa < 0 ∨ 1 < pfa ∨ pfa = 0 → compute_cfar_threshold k data pfa = none) ∧
    (pfa = 1 → compute_cfar_threshold k data pfa = some 0) ∧
    (0 < pfa → pfa < 1 → ∃ v, compute_cfar_threshold k data pfa = some v) := by
  refine ⟨?_, ?_, ?_⟩
  · intro h
    have hnone : k.ppf (1 - pfa) = none := by
      apply k.ppf_undef
      rcases h with h | h | h
      · right; linarith
      · left; linarith
      · right; rw [h]; norm_num
    rw [compute_cfar_threshold, hnone]; rfl
  · intro h
    rw [compute_cfar_threshold]
    have h0 : 1 - pfa = 0 := by rw [h]; ring
    rw [h0, k.ppf_zero]
    simp
  · intro hp0 hp1
    obtain ⟨t, ht⟩ := k.ppf_dom (1 - pfa) (by linarith) (by linarith)
    exact ⟨t * (listMean data / k.mean), by rw [compute_cfar_threshold, ht]; rfl⟩

/-- Witness for the amended claim C8 at the concrete model kWitness and
the clutter data [1], discharging the first implication at PFA = -1. -/
theorem claim_c8_domain_witness :
    ((-1:ℝ) < 0 ∨ 1 < (-1:ℝ) ∨ (-1:ℝ) = 0) ∧
      compute_cfar_threshold kWitness [1] (-1) = none :=
  ⟨Or.inl (by norm_num), (claim_c8_domain kWitness [1] (-1)).1 (Or.inl (by norm_num))⟩

/-- A single sea state entry: adding the linear NESZ floor preserves the
sample count and bounds every sample below by the floor. -/
theorem clutter_entry_bound (nesz : ℝ) {d : List ℝ} (hlen : d.length = 1000)
    (hball : ∀ x ∈ d, 0 ≤ x) :
    (d.map (fun x => x + neszLinear nesz)).length = 1000 ∧
    ∀ x ∈ d.map (fun x => x + neszLinear nesz), neszLinear nesz ≤ x := by
  constructor
  · simp [hlen]
  · intro x hx
    obtain ⟨y, hy, rfl⟩ := List.mem_map.1 hx
    have := hball y hy
    linarith

/-- Claim C3: for every NESZ value in decibels, generate_clutter_data
returns a mapping of exactly 5 sea states in which each SampleSet has
exactly 1000 elements and every element is at least the linear NESZ floor
10 ^ (NESZ_dB / 10). -/
theorem claim_c3_clutter (nesz : ℝ) (d1 d2 d3 d4 d5 : List ℝ)
    (h1 : d1.length = 1000) (h2 : d2.length = 1000) (h3 : d3.length = 1000)
    (h4 : d4.length = 1000) (h5 : d5.length = 1000)
    (g1 : ∀ x ∈ d1, 0 ≤ x) (g2 : ∀ x ∈ d2, 0 ≤ x) (g3 : ∀ x ∈ d3, 0 ≤ x)
    (g4 : ∀ x ∈ d4, 0 ≤ x) (g5 : ∀ x ∈ d5, 0 ≤ x) :
    (generate_clutter_data nesz d1 d2 d3 d4 d5).length = 5 ∧
    ∀ p ∈ generate_clutter_data nesz d1 d2 d3 d4 d5,
      p.2.length = 1000 ∧ ∀ x ∈ p.2, neszLinear nesz ≤ x := by
  constructor
  · rfl
  · intro p hp
    simp only [generate_clutter_data, List.mem_cons, List.not_mem_nil, or_false] at hp
    rcases hp with rfl | rfl | rfl | rfl | rfl
    · exact clutter_entry_bound nesz h1 g1
    · exact clutter_entry_bound nesz h2 g2
    · exact clutter_entry_bound nesz h3 g3
    · exact clutter_entry_bound nesz h4 g4
    · exact clutter_entry_bound nesz h5 g5

/-- Witness for claim C3 at NESZ = 0 dB and five constant draw vectors of
length 1000. -/
theorem claim_c3_clutter_witness :
    (List.replicate 1000 (1:ℝ)).length = 1000 ∧
    (∀ x ∈ List.replicate 1000 (1:ℝ), 0 ≤ x) ∧
    ((generate_clutter_data 0 (List.replicate 1000 1) (List.replicate 1000 1)
        (List.replicate 1000 1) (List.replicate 1000 1) (List.replicate 1000 1)).length = 5 ∧
      ∀ p ∈ generate_clutter_data 0 (List.replicate 1000 1) (List.replicate 1000 1)
          (List.replicate 1000 1) (List.replicate 1000 1) (List.replicate 1000 1),
        p.2.length = 1000 ∧ ∀ x ∈ p.2, neszLinear 0 ≤ x) :=
  ⟨by rw [List.length_replicate], by intro x hx; rw [List.eq_of_mem_replicate hx]; norm_num,
    claim_c3_clutter 0 _ _ _ _ _ (by rw [List.length_replicate]) (by rw [List.length_replicate])
      (by rw [List.length_replicate]) (by rw [List.length_replicate]) (by rw [List.length_replicate])
      (by intro x hx; rw [List.eq_of_mem_replicate hx]; norm_num)
      (by intro x hx; rw [List.eq_of_mem_replicate hx]; norm_num)
      (by intro x hx; rw [List.eq_of_mem_replicate hx]; norm_num)
      (by intro x hx; rw [List.eq_of_mem_replicate hx]; norm_num)
      (by intro x hx; rw [List.eq_of_mem_replicate hx]; norm_num)⟩

/-- Claim C4: estimate_pixels computes ceiling(length / resolution)
floored at 1, is monotonically non-decreasing in the target length for
fixed positive ground resolution, returns 1 for every length at most the
ground resolution, and on the catalog examples gives
estimate_pixels 9.144 10 = 1 and estimate_pixels 42.672 10 = 5. -/
theorem claim_c4_pixels (r l l₁ l₂ : ℝ) (hr : 0 < r) (h12 : l₁ ≤ l₂)
    (hlr : l ≤ r) :
    estimate_pixels l r = max 1 ⌈l / r⌉ ∧
    estimate_pixels l₁ r ≤ estimate_pixels l₂ r ∧
    estimate_pixels l r = 1 ∧
    estimate_pixels 9.144 ground_resolution = 1 ∧
    estimate_pixels 42.672 ground_resolution = 5 := by
  refine ⟨rfl, ?_, ?_, ?_, ?_⟩
  · have hdiv : l₁ / r ≤ l₂ / r := by gcongr
    exact max_le_max le_rfl (Int.ceil_le_ceil hdiv)
  · have hdiv : l / r ≤ 1 := (div_le_one hr).2 hlr
    have hceil : ⌈l / r⌉ ≤ 1 := Int.ceil_le.2 (by exact_mod_cast hdiv)
    exact max_eq_left hceil
  · have h : ⌈(9.144:ℝ) / 10⌉ = 1 := by rw [Int.ceil_eq_iff]; norm_num
    rw [estimate_pixels, ground_resolution, h]
    norm_num
  · have h : ⌈(42.672:ℝ) / 10⌉ = 5 := by rw [Int.ceil_eq_iff]; norm_num
    rw [estimate_pixels, ground_resolution, h]
    norm_num

/-- Witness for claim C4 at resolution 10, lengths 7 and 5 ≤ 12. -/
theorem claim_c4_pixels_witness :
    (0:ℝ) < 10 ∧ (5:ℝ) ≤ 12 ∧ (7:ℝ) ≤ 10 ∧
    (estimate_pixels 7 10 = max 1 ⌈(7:ℝ) / 10⌉ ∧
      estimate_pixels 5 10 ≤ estimate_pixels 12 10 ∧
      estimate_pixels 7 10 = 1 ∧
      estimate_pixels 9.144 ground_resolution = 1 ∧
      estimate_pixels 42.672 ground_resolution = 5) :=
  ⟨by norm_num, by norm_num, by norm_num,
    claim_c4_pixels 10 7 5 12 (by norm_num) (by norm_num) (by norm_num)⟩

/-- Claim C9: estimate_pixels is total on all real lengths and always at
least 1; for nonnegative resolution and nonpositive length (including the
length 0 entry of the target catalog and any negative length) it returns
exactly 1. -/
theorem claim_c9_pixels_total (l r : ℝ) :
    1 ≤ estimate_pixels l r ∧
    (0 ≤ r → l ≤ 0 → estimate_pixels l r = 1) ∧
    estimate_pixels 0 ground_resolution = 1 := by
  refine ⟨le_max_left _ _, ?_, ?_⟩
  · intro hr hl
    have hdiv : l / r ≤ 0 := div_nonpos_iff.2 (Or.inr ⟨hl, hr⟩)
    have hceil0 : ⌈l / r⌉ ≤ (0:ℤ) := Int.ceil_le.2 (by exact_mod_cast hdiv)
    have hceil : ⌈l / r⌉ ≤ 1 := le_trans hceil0 (by norm_num)
    exact max_eq_left hceil
  · have h : ⌈(0:ℝ) / 10⌉ = 0 := by norm_num
    rw [estimate_pixels, ground_resolution, h]
    norm_num

/-- Witness for claim C9 at length -3 and resolution 10. -/
theorem claim_c9_pixels_total_witness :
    (0:ℝ) ≤ 10 ∧ (-3:ℝ) ≤ 0 ∧
    (1 ≤ estimate_pixels (-3) 10 ∧
      ((0:ℝ) ≤ 10 → (-3:ℝ) ≤ 0 → estimate_pixels (-3) 10 = 1) ∧
      estimate_pixels 0 ground_resolution = 1) :=
  ⟨by norm_num, by norm_num, claim_c9_pixels_total (-3) 10⟩

/-- Claim C5: for a present RCS value, generate_target_data returns a
SampleSet of length exactly size * pixels equal to the elementwise sum of
the Rayleigh samples with location rcs * 10 ^ (snr_db / 10) + nesz_linear
and scale 1.5 and the Gamma samples shifted by the linear NESZ floor. -/
theorem claim_c5_target_shape (rcs snr_db nesz : ℝ) (size pixels : ℕ)
    (hp : 1 ≤ pixels) (r g : List ℝ)
    (hr : r.length = size * pixels) (hg : g.length = size * pixels) :
    (generate_target_data rcs snr_db size pixels nesz r g).length = size * pixels ∧
    generate_target_data rcs snr_db size pixels nesz r g =
      List.zipWith (fun a b => a + b)
        (r.map (fun x => rcs * (10:ℝ) ^ (snr_db / 10) + neszLinear nesz + 1.5 * x))
        (g.map (fun x => x + neszLinear nesz)) := by
  constructor
  · simp [generate_target_data, List.length_zipWith, hr, hg]
  · rfl

/-- Witness for claim C5 with size = 2, pixels = 1 and draw vectors of
length 2. -/
theorem claim_c5_target_shape_witness :
    1 ≤ 1 ∧ ([0, 0] : List ℝ).length = 2 * 1 ∧
    ((generate_target_data 8 0 2 1 0 [0, 0] [0, 0]).length = 2 * 1 ∧
      generate_target_data 8 0 2 1 0 [0, 0] [0, 0] =
        List.zipWith (fun a b => a + b)
          (([0, 0] : List ℝ).map (fun x => 8 * (10:ℝ) ^ ((0:ℝ) / 10) + neszLinear 0 + 1.5 * x))
          (([0, 0] : List ℝ).map (fun x => x + neszLinear 0))) :=
  ⟨le_refl 1, by simp,
    claim_c5_target_shape 8 0 0 2 1 (le_refl 1) [0, 0] [0, 0] (by simp) (by simp)⟩

/-- Claim C10: every element of the SampleSet returned by
generate_target_data with a present RCS is at least
rcs * 10 ^ (snr_db / 10) + 2 * 10 ^ (nesz / 10), since Rayleigh samples
are at least their location parameter and Gamma samples are
nonnegative. -/
theorem claim_c10_target_lower_bound (rcs snr_db nesz : ℝ) (size pixels : ℕ)
    (r g : List ℝ) (hr0 : ∀ x ∈ r, 0 ≤ x) (hg0 : ∀ x ∈ g, 0 ≤ x) :
    ∀ y ∈ generate_target_data rcs snr_db size pixels nesz r g,
      rcs * (10:ℝ) ^ (snr_db / 10) + 2 * neszLinear nesz ≤ y := by
  intro y hy
  simp only [generate_target_data] at hy
  obtain ⟨a, ha, b, hb, rfl⟩ := exists_of_mem_zipWith hy
  obtain ⟨x, hx, rfl⟩ := List.mem_map.1 ha
  obtain ⟨z, hz, rfl⟩ := List.mem_map.1 hb
  have hxr : 0 ≤ x := hr0 x hx
  have hzg : 0 ≤ z := hg0 z hz
  have h15 : 0 ≤ 1.5 * x := by linarith
  linarith

/-- Witness for claim C10 with nonnegative draw vectors [0, 1] and [2, 0]. -/
theorem claim_c10_target_lower_bound_witness :
    (∀ x ∈ ([0, 1] : List ℝ), 0 ≤ x) ∧ (∀ x ∈ ([2, 0] : List ℝ), 0 ≤ x) ∧
    (∀ y ∈ generate_target_data 8 0 2 1 0 [0, 1] [2, 0],
      8 * (10:ℝ) ^ ((0:ℝ) / 10) + 2 * neszLinear 0 ≤ y) :=
  ⟨by intro x hx; simp at hx; rcases hx with rfl | rfl <;> norm_num,
    by intro x hx; simp at hx; rcases hx with rfl | rfl <;> norm_num,
    claim_c10_target_lower_bound 8 0 0 2 1 [0, 1] [2, 0]
      (by intro x hx; simp at hx; rcases hx with rfl | rfl <;> norm_num)
      (by intro x hx; simp at hx; rcases hx with rfl | rfl <;> norm_num)⟩

/-- Claim C7: generate_target_data invoked with an absent RCS (Python
None) raises rather than computing a spurious SampleSet; the raised
TypeError is modelled as the none result of the Option-valued call. -/
theorem claim_c7_missing_rcs (snr_db nesz : ℝ) (size pixels : ℕ)
    (r g : List ℝ) :
    generate_target_dataOpt none snr_db size pixels nesz r g = none := rfl

/-- Claim C6: for nonempty clutter and target SampleSets, the AUC of
compute_roc_curve is the trapezoidal integral of the returned curve, the
binary decision per sample is sample >= threshold over the concatenation
with labels 0 for clutter and 1 for target, identical clutter and target
arrays give AUC exactly 1/2, and completely separated data (every target
sample at or above the threshold, every clutter sample below) give
AUC = 1. -/
theorem claim_c6_roc (clutter_data target_data : List ℝ) (thr : ℝ)
    (hcne : clutter_data ≠ []) (htne : target_data ≠ []) :
    ((compute_roc_curve clutter_data target_data thr).2.2 =
      auc (compute_roc_curve clutter_data target_data thr).1
        (compute_roc_curve clutter_data target_data thr).2.1) ∧
    (rocDetections (clutter_data ++ target_data) thr =
      (clutter_data ++ target_data).map (fun s => if thr ≤ s then true else false)) ∧
    (clutter_data = target_data →
      (compute_roc_curve clutter_data target_data thr).2.2 = 1 / 2) ∧
    ((∀ x ∈ target_data, thr ≤ x) → (∀ x ∈ clutter_data, x < thr) →
      (compute_roc_curve clutter_data target_data thr).2.2 = 1) := by
  refine ⟨rfl, rfl, ?_, ?_⟩
  · intro heq
    subst heq
    rw [compute_roc_curve_auc, auc_three]
    ring
  · intro htar hclut
    have hFP : clutter_data.countP (fun s => if thr ≤ s then true else false) = 0 := by
      rw [List.countP_eq_zero]
      intro a ha
      simp [not_le.2 (hclut a ha)]
    have hTP : target_data.countP (fun s => if thr ≤ s then true else false) =
        target_data.length := by
      rw [List.countP_eq_length]
      intro a ha
      simp [htar a ha]
    have hlen : (target_data.length : ℝ) ≠ 0 := by
      exact_mod_cast Nat.pos_iff_ne_zero.1 (List.length_pos.2 htne)
    rw [compute_roc_curve_auc, hFP, hTP, Nat.cast_zero, zero_div, div_self hlen, auc_three]
    norm_num

/-- Witness for claim C6 with clutter [0] and target [1]. -/
theorem claim_c6_roc_witness :
    ([0] : List ℝ) ≠ [] ∧ ([1] : List ℝ) ≠ [] ∧
    (((compute_roc_curve [0] [1] (1/2)).2.2 =
        auc (compute_roc_curve [0] [1] (1/2)).1 (compute_roc_curve [0] [1] (1/2)).2.1) ∧
      (rocDetections ([0] ++ [1] : List ℝ) (1/2) =
        (([0] ++ [1] : List ℝ)).map (fun s => if (1/2 : ℝ) ≤ s then true else false)) ∧
      (([0] : List ℝ) = [1] → (compute_roc_curve [0] [1] (1/2)).2.2 = 1 / 2) ∧
      ((∀ x ∈ ([1] : List ℝ), (1/2 : ℝ) ≤ x) → (∀ x ∈ ([0] : List ℝ), x < 1/2) →
        (compute_roc_curve [0] [1] (1/2)).2.2 = 1)) :=
  ⟨by simp, by simp, claim_c6_roc [0] [1] (1/2) (by simp) (by simp)⟩
